import Mathlib

/-!
Verification of `src/main.py` (a chat bot that converts Google Docs/Sheets
links into DOCX/XLSX files).  The Python source is shallowly embedded below:
pure functions become Lean functions, the remote Drive service becomes an
explicit behaviour record, Python exceptions become `Except` results, and
JSON payloads become an explicit `Json` inductive.
-/

namespace GDoc

/-! ## Reference extraction (`extract_file_ids`, main.py lines 39-56)

The Python function applies four regular expressions with `re.findall` and
deduplicates the concatenated matches keeping first occurrences.  Each
pattern is a fixed prefix (a character-class sequence) followed by a greedy
capture group `([a-zA-Z0-9_-]+)`.  We embed `re.findall` for exactly this
shape of pattern: scan left to right, at each position try to match the
prefix and then take the maximal nonempty run of identifier characters;
on success continue after the match (non-overlapping), otherwise advance
one character. -/

/-- Characters matched by the capture class `[a-zA-Z0-9_-]` (ASCII only,
as in the Python pattern). -/
def isIdChar (c : Char) : Bool :=
  (c ≥ 'a' && c ≤ 'z') || (c ≥ 'A' && c ≤ 'Z') || (c ≥ '0' && c ≤ '9') ||
    c = '_' || c = '-'

/-- Greedy `[a-zA-Z0-9_-]+`-style run: the maximal run of identifier
characters at the front of the list, together with the remainder. -/
def takeIdRun : List Char → List Char × List Char
  | [] => ([], [])
  | c :: cs =>
    if isIdChar c then
      let p := takeIdRun cs
      (c :: p.1, p.2)
    else ([], c :: cs)

/-- Match a fixed pattern prefix, given as one list of admissible characters
per position (a singleton list for a literal character, `['?', '&']` for the
character class in the fourth pattern).  Returns the remainder on success. -/
def matchPrefixSets : List (List Char) → List Char → Option (List Char)
  | [], s => some s
  | _ :: _, [] => none
  | ds :: rest, c :: cs => if ds.contains c then matchPrefixSets rest cs else none

/-- One `re.findall` scan for a pattern `prefix ++ ([a-zA-Z0-9_-]+)`.
The fuel argument bounds the number of scan steps; every step consumes at
least one character, so fuel equal to the string length is sufficient. -/
def scanPattern (pat : List (List Char)) : Nat → List Char → List (List Char)
  | 0, _ => []
  | _ + 1, [] => []
  | fuel + 1, c :: cs =>
    match matchPrefixSets pat (c :: cs) with
    | some rest =>
      let p := takeIdRun rest
      if p.1.isEmpty then scanPattern pat fuel cs
      else p.1 :: scanPattern pat fuel p.2
    | none => scanPattern pat fuel cs

/-- `re.findall(prefix-pattern + capture-group, s)` as a list of strings. -/
def findall (pat : List (List Char)) (s : String) : List String :=
  (scanPattern pat s.data.length s.data).map (fun cs => String.mk cs)

/-- Pattern prefix built from a literal string. -/
def litPat (s : String) : List (List Char) :=
  s.data.map (fun c => [c])

/-- `r"/document/d/([a-zA-Z0-9_-]+)"` -/
def patDocument : List (List Char) := litPat "/document/d/"

/-- `r"/spreadsheets/d/([a-zA-Z0-9_-]+)"` -/
def patSpreadsheets : List (List Char) := litPat "/spreadsheets/d/"

/-- `r"/file/d/([a-zA-Z0-9_-]+)"` -/
def patFile : List (List Char) := litPat "/file/d/"

/-- `r"[?&]id=([a-zA-Z0-9_-]+)"` -/
def patIdParam : List (List Char) := [['?', '&'], ['i'], ['d'], ['=']]

/-- The concatenation `ids` built by the loop `for p in patterns: ids +=
re.findall(p, text)` in `extract_file_ids`, in pattern order. -/
def allRawIds (text : String) : List String :=
  findall patDocument text ++ findall patSpreadsheets text ++
    findall patFile text ++ findall patIdParam text

/-- The final loop of `extract_file_ids`: keep the first occurrence of each
identifier (`seen` is the set of identifiers already emitted). -/
def dedupSeen {α : Type} [DecidableEq α] : List α → List α → List α
  | _, [] => []
  | seen, x :: xs =>
    if x ∈ seen then dedupSeen seen xs
    else x :: dedupSeen (x :: seen) xs

/-- `extract_file_ids` (main.py lines 39-56): the raw matches of the four
patterns, concatenated in pattern order, deduplicated keeping first
occurrences. -/
def extract_file_ids (text : String) : List String :=
  dedupSeen [] (allRawIds text)

example : extract_file_ids "check https://docs.google.com/document/d/ABC123/edit" = ["ABC123"] := by
  decide

example : extract_file_ids "https://drive.google.com/open?id=XYZ999&resourcekey=Q1" = ["XYZ999"] := by
  decide

example :
    extract_file_ids
      "https://drive.google.com/file/d/ABC/view https://drive.google.com/open?id=ABC" =
    ["ABC"] := by
  decide

/-! ### Properties of the dedup loop -/

/-- Index of the first occurrence of `a` (length of the list if absent). -/
def firstIdx {α : Type} [DecidableEq α] (a : α) : List α → Nat
  | [] => 0
  | x :: xs => if x = a then 0 else firstIdx a xs + 1

theorem firstIdx_cons_self {α : Type} [DecidableEq α] (a : α) (l : List α) :
    firstIdx a (a :: l) = 0 := by
  simp [firstIdx]

theorem firstIdx_cons_ne {α : Type} [DecidableEq α] {a x : α} (l : List α)
    (h : x ≠ a) : firstIdx a (x :: l) = firstIdx a l + 1 := by
  simp [firstIdx, h]

theorem firstIdx_append_of_not_mem {α : Type} [DecidableEq α] {a : α}
    {pre : List α} (l : List α) (h : a ∉ pre) :
    firstIdx a (pre ++ l) = pre.length + firstIdx a l := by
  induction pre with
  | nil => simp
  | cons x xs ih =>
    have hxa : x ≠ a := fun he => h (he ▸ List.mem_cons_self x xs)
    have hax : a ∉ xs := fun hm => h (List.mem_cons_of_mem x hm)
    simp only [List.cons_append, firstIdx_cons_ne _ hxa, ih hax, List.length_cons]
    omega

theorem mem_dedupSeen {α : Type} [DecidableEq α] {a : α} :
    ∀ {l seen : List α}, a ∈ dedupSeen seen l → a ∉ seen ∧ a ∈ l
  | [], _, h => by simp [dedupSeen] at h
  | x :: xs, seen, h => by
    by_cases hx : x ∈ seen
    · simp only [dedupSeen, if_pos hx] at h
      obtain ⟨h1, h2⟩ := mem_dedupSeen h
      exact ⟨h1, List.mem_cons_of_mem x h2⟩
    · simp only [dedupSeen, if_neg hx, List.mem_cons] at h
      rcases h with rfl | h
      · exact ⟨hx, List.mem_cons_self a xs⟩
      · obtain ⟨h1, h2⟩ := mem_dedupSeen h
        exact ⟨fun hm => h1 (List.mem_cons_of_mem x hm), List.mem_cons_of_mem x h2⟩

theorem mem_dedupSeen_of_mem {α : Type} [DecidableEq α] {a : α} :
    ∀ {l seen : List α}, a ∈ l → a ∉ seen → a ∈ dedupSeen seen l
  | [], _, h, _ => by simp at h
  | x :: xs, seen, h, hs => by
    by_cases hx : x ∈ seen
    · have hax : a ∈ xs := by
        rcases List.mem_cons.mp h with he | hm
        · exact absurd (he ▸ hx) hs
        · exact hm
      simpa [dedupSeen, if_pos hx] using mem_dedupSeen_of_mem hax hs
    · simp only [dedupSeen, if_neg hx]
      rcases List.mem_cons.mp h with he | hm
      · exact he ▸ List.mem_cons_self x _
      · by_cases hax : a = x
        · exact hax ▸ List.mem_cons_self x _
        · have : a ∉ x :: seen := by
            intro hc
            rcases List.mem_cons.mp hc with h1 | h2
            · exact hax h1
            · exact hs h2
          exact List.mem_cons_of_mem x (mem_dedupSeen_of_mem hm this)

theorem dedupSeen_congr {α : Type} [DecidableEq α] :
    ∀ (l : List α) {s t : List α}, (∀ a, a ∈ s ↔ a ∈ t) →
      dedupSeen s l = dedupSeen t l
  | [], _, _, _ => rfl
  | x :: xs, s, t, h => by
    by_cases hx : x ∈ s
    · simp only [dedupSeen, if_pos hx, if_pos ((h x).mp hx)]
      exact dedupSeen_congr xs h
    · have hxt : x ∉ t := fun hc => hx ((h x).mpr hc)
      simp only [dedupSeen, if_neg hx, if_neg hxt]
      refine congrArg _ (dedupSeen_congr xs fun a => ?_)
      simp only [List.mem_cons]
      exact or_congr Iff.rfl (h a)

/-- Core ordering property of the dedup loop: when `seen` is exactly the
already-scanned prefix, the output is strictly ordered by position of first
occurrence in the full list. -/
theorem dedupSeen_pairwise {α : Type} [DecidableEq α] :
    ∀ (l pre : List α),
      (dedupSeen pre l).Pairwise
        (fun a b => firstIdx a (pre ++ l) < firstIdx b (pre ++ l))
  | [], _ => List.Pairwise.nil
  | x :: xs, pre => by
    by_cases hx : x ∈ pre
    · simp only [dedupSeen, if_pos hx]
      have hcongr : dedupSeen pre xs = dedupSeen (pre ++ [x]) xs := by
        refine dedupSeen_congr xs fun a => ?_
        simp only [List.mem_append, List.mem_singleton]
        constructor
        · exact Or.inl
        · rintro (h | rfl)
          · exact h
          · exact hx
      have := dedupSeen_pairwise xs (pre ++ [x])
      rw [List.append_assoc] at this
      simpa [hcongr] using this
    · simp only [dedupSeen, if_neg hx]
      refine List.Pairwise.cons ?_ ?_
      · intro y hy
        obtain ⟨hys, hyx⟩ := mem_dedupSeen hy
        have hynx : y ≠ x := fun he => hys (he ▸ List.mem_cons_self x pre)
        have hynp : y ∉ pre := fun hm => hys (List.mem_cons_of_mem x hm)
        have hxi : firstIdx x (pre ++ x :: xs) = pre.length := by
          rw [firstIdx_append_of_not_mem _ hx, firstIdx_cons_self]
          omega
        have hyi : firstIdx y (pre ++ x :: xs) =
            pre.length + (firstIdx y xs + 1) := by
          rw [firstIdx_append_of_not_mem _ hynp,
            firstIdx_cons_ne _ (fun he => hynx he.symm)]
        omega
      · have hcongr : dedupSeen (x :: pre) xs = dedupSeen (pre ++ [x]) xs := by
          refine dedupSeen_congr xs fun a => ?_
          simp only [List.mem_cons, List.mem_append, List.mem_singleton]
          tauto
        have := dedupSeen_pairwise xs (pre ++ [x])
        rw [List.append_assoc] at this
        simpa [hcongr] using this

theorem dedupSeen_nodup {α : Type} [DecidableEq α] (l pre : List α) :
    (dedupSeen pre l).Nodup := by
  refine (dedupSeen_pairwise l pre).imp ?_
  intro a b hab he
  subst he
  exact Nat.lt_irrefl _ hab

/-! ## File references

The spec's data model pairs each extracted identifier with an optional
access qualifier ("resource key").  In the source, a reference is just the
identifier string: `extract_file_ids` returns bare ids, no code matches
`resourcekey`, and `handle_text` passes each id to `export_google_file`,
whose only parameter is `file_id`.  So the reference the pipeline
constructs carries no qualifier. -/

structure FileReference where
  id : String
  qualifier : Option String
deriving DecidableEq

/-- The references the code's pipeline actually constructs for a message
text: the extracted ids, each with no access qualifier (no `resourcekey`
parsing exists anywhere in `src/main.py`). -/
def extractReferences (text : String) : List FileReference :=
  (extract_file_ids text).map (fun i => { id := i, qualifier := none })

/-! ## Error payloads and the classifier
(`parse_http_error_reason`, `describe_http_error`, main.py lines 114-169)

An `HttpError` is modelled by the two attributes the code reads: the
numeric response status (`getattr(err.resp, "status", None)`) and the raw
content body.  `json.loads` itself is not re-implemented; instead the
content field records its observable outcome: `none` for absent or empty
(falsy) content, `some none` for content that is not valid JSON (the
`ValueError` branch of the `try`), and `some (some j)` for content that
decodes to the JSON value `j`. -/

/-- JSON values, as produced by `json.loads` (numbers restricted to
integers, which covers every payload the code distinguishes). -/
inductive Json where
  | null
  | bool (b : Bool)
  | num (n : Int)
  | str (s : String)
  | arr (elems : List Json)
  | obj (fields : List (String × Json))

/-- Python exceptions that can escape the classifier: `AttributeError`
from calling `.get` on a non-dict, `TypeError` from hashing an unhashable
value in `reason in reason_map`. -/
inductive PyErr where
  | attributeError
  | typeError
deriving DecidableEq

structure HttpErrM where
  status : Option Nat
  content : Option (Option Json)

/-- `d.get(key)` on a JSON object: `some v` when the key is present with
value `v` (including an explicit JSON `null`), `none` when absent. -/
def jlookup (fields : List (String × Json)) (key : String) : Option Json :=
  match fields with
  | [] => none
  | (k, v) :: rest => if k = key then some v else jlookup rest key

/-- Python truthiness of a decoded JSON value. -/
def jtruthy : Json → Bool
  | .null => false
  | .bool b => b
  | .num n => n ≠ 0
  | .str s => s ≠ ""
  | .arr l => !l.isEmpty
  | .obj l => !l.isEmpty

mutual

/-- `repr()` of a decoded JSON value (used for container elements). -/
def pyRepr : Json → String
  | .null => "None"
  | .bool b => if b then "True" else "False"
  | .num n => toString n
  | .str s => "'" ++ s ++ "'"
  | .arr l => "[" ++ String.intercalate ", " (pyReprList l) ++ "]"
  | .obj l => "\x7b" ++ String.intercalate ", " (pyReprFields l) ++ "\x7d"

def pyReprList : List Json → List String
  | [] => []
  | j :: js => pyRepr j :: pyReprList js

def pyReprFields : List (String × Json) → List String
  | [] => []
  | (k, v) :: rest => ("'" ++ k ++ "': " ++ pyRepr v) :: pyReprFields rest

end

/-- `str()` of a decoded JSON value, as interpolated by the f-string in the
fallback branch of `describe_http_error` (it differs from `repr()` only at
the top level of a string). -/
def pyStr : Json → String
  | .null => "None"
  | .bool b => if b then "True" else "False"
  | .num n => toString n
  | .str s => s
  | .arr l => "[" ++ String.intercalate ", " (pyReprList l) ++ "]"
  | .obj l => "\x7b" ++ String.intercalate ", " (pyReprFields l) ++ "\x7d"

/-- `parse_http_error_reason` (main.py lines 114-132).  Returns the
`(reason, message)` pair, or the Python exception that escapes: the `try`
only protects decoding and `json.loads`, so `payload.get` on a non-dict
payload, `error.get` on a non-dict `error` value, and `errors[0].get` on a
non-dict first sub-error all raise `AttributeError` outside it. -/
def parse_http_error_reason (e : HttpErrM) :
    Except PyErr (Option Json × Option Json) :=
  match e.content with
  | none => .ok (none, none)
  | some none => .ok (none, none)
  | some (some payload) =>
    match payload with
    | .obj pfields =>
      match (jlookup pfields "error").getD (.obj []) with
      | .obj efields =>
        let message := jlookup efields "message"
        match (jlookup efields "errors").getD (.arr []) with
        | .arr (e0 :: _) =>
          match e0 with
          | .obj ffields => .ok (jlookup ffields "reason", message)
          | _ => .error .attributeError
        | _ => .ok (none, message)
      | _ => .error .attributeError
    | _ => .error .attributeError

/-- The literal `reason_map` dict of `describe_http_error`, as an
association list in source order. -/
def reasonMap : List (String × String) :=
  [("insufficientPermissions",
    "Доступ ограничен. Файл не расшарен на сервисный аккаунт."),
   ("insufficientFilePermissions",
    "Доступ ограничен. Файл не расшарен на сервисный аккаунт."),
   ("appNotAuthorizedToFile",
    "Приложение не авторизовано для файла. Нужен доступ сервисного аккаунта."),
   ("downloadFileRestricted",
    "Запрет на скачивание. Владелец запретил экспорт."),
   ("fileNotDownloadable",
    "Запрет на скачивание. Владелец запретил экспорт."),
   ("exportSizeLimitExceeded",
    "Файл слишком большой для экспорта."),
   ("cannotDownloadAbusiveFile",
    "Google заблокировал скачивание файла как потенциально опасного."),
   ("userRateLimitExceeded",
    "Слишком много запросов. Попробуй позже."),
   ("rateLimitExceeded",
    "Слишком много запросов. Попробуй позже."),
   ("sharingRateLimitExceeded",
    "Превышен лимит общего доступа. Попробуй позже."),
   ("quotaExceeded",
    "Превышена квота Google Drive. Попробуй позже.")]

def reasonMapLookup (s : String) : Option String :=
  (reasonMap.find? (fun kv => kv.1 = s)).map Prod.snd

/-- `reason in reason_map` followed by `reason_map[reason]`: dict lookup
keyed by the parsed reason value.  A missing reason or a hashable
non-string value is simply not a key; an unhashable value (list or dict)
raises `TypeError`. -/
def reasonKeyOf : Option Json → Except PyErr (Option String)
  | none => .ok none
  | some (.str s) => .ok (reasonMapLookup s)
  | some (.arr _) => .error .typeError
  | some (.obj _) => .error .typeError
  | some _ => .ok none

/-- `describe_http_error` (main.py lines 135-169). -/
def describe_http_error (e : HttpErrM) : Except PyErr String :=
  match parse_http_error_reason e with
  | .error pe => .error pe
  | .ok (reason, message) =>
    if e.status = some 404 then
      .ok "Не найден документ по ссылке. Проверь ссылку и доступ."
    else if e.status = some 401 then
      .ok "Нет доступа к Google Drive. Проверь сервисный аккаунт."
    else if e.status = some 429 then
      .ok "Слишком много запросов. Попробуй позже."
    else if e.status = some 500 ∨ e.status = some 502 ∨
        e.status = some 503 ∨ e.status = some 504 then
      .ok "Google Drive временно недоступен. Попробуй позже."
    else if e.status = some 403 then
      match reasonKeyOf reason with
      | .error pe => .error pe
      | .ok (some msg) => .ok msg
      | .ok none => .ok "Доступ ограничен или запрещен. Проверь права."
    else if e.status = some 400 then
      match reasonKeyOf reason with
      | .error pe => .error pe
      | .ok (some msg) => .ok msg
      | .ok none =>
        match message with
        | some m =>
          if jtruthy m then .ok ("Ошибка Google Drive: " ++ pyStr m)
          else .ok "Ошибка Google Drive при обработке файла."
        | none => .ok "Ошибка Google Drive при обработке файла."
    else
      match message with
      | some m =>
        if jtruthy m then .ok ("Ошибка Google Drive: " ++ pyStr m)
        else .ok "Ошибка Google Drive при обработке файла."
      | none => .ok "Ошибка Google Drive при обработке файла."

/-- `s.startswith(pre)` on explicit character lists. -/
def startsWithCh (s pre : List Char) : Bool :=
  s.take pre.length = pre

/-- `describe_value_error` (main.py lines 172-178), on the exception's
message string. -/
def describe_value_error (msg : String) : String :=
  if startsWithCh msg.data "Unsupported mimeType:".data then
    "Формат файла не поддерживается. Подходят только Google Docs и Google Sheets."
  else "Ошибка обработки: " ++ msg

/-! ## Export client (`export_google_file`, main.py lines 87-111)

The Drive service is modelled by the outcomes of its two remote calls: the
metadata fetch `files().get(...).execute()` and the export-and-download
sequence (`files().export_media` plus the `next_chunk` loop, which either
delivers all chunks in order or raises).  `export_google_file` returns the
Python result or exception together with the trace of remote calls it
issued, in order. -/

def GOOGLE_DOC_MIME : String := "application/vnd.google-apps.document"

def GOOGLE_SHEET_MIME : String := "application/vnd.google-apps.spreadsheet"

/-- The fields the code requests from the metadata call
(`fields="name,mimeType"`); `none` models an absent key, so that
`meta.get("name", "file")` and `meta.get("mimeType")` apply their
defaults. -/
structure DriveMeta where
  name : Option String
  mimeType : Option String

structure DriveBehavior where
  meta : Except HttpErrM DriveMeta
  exportChunks : Except HttpErrM (List (List Nat))

inductive RemoteCall where
  | metaGet
  | exportMedia
deriving DecidableEq

/-- The exceptions `export_google_file` can raise: an `HttpError` from
either remote call, or the local `ValueError` for unsupported types. -/
inductive ExportFailure where
  | http (e : HttpErrM)
  | valueError (msg : String)

/-- The `while not done` download loop: the chunks accumulate into the
buffer in order, and the bytes are read back only after completion. -/
def download_all : List (List Nat) → List Nat
  | [] => []
  | c :: cs => c ++ download_all cs

/-- `f"{mime}"` on the value of `meta.get("mimeType")`. -/
def pyOptStr : Option String → String
  | none => "None"
  | some s => s

/-- `c.lower()` for the ASCII case used by `name.lower()`. -/
def lowerCh (s : String) : List Char :=
  s.data.map Char.toLower

/-- `s.endswith(suf)` on explicit character lists. -/
def endsWithCh (s suf : List Char) : Bool :=
  s.drop (s.length - suf.length) = suf

/-- `export_google_file` (main.py lines 87-111): metadata fetch, local
mime-type dispatch, export-and-download, filename computation.  The second
component is the trace of remote calls issued. -/
def export_google_file (b : DriveBehavior) :
    Except ExportFailure (List Nat × String) × List RemoteCall :=
  match b.meta with
  | .error he => (.error (.http he), [.metaGet])
  | .ok meta =>
    let name := meta.name.getD "file"
    let mime := meta.mimeType
    if mime = some GOOGLE_DOC_MIME then
      exportStep b name ".docx"
    else if mime = some GOOGLE_SHEET_MIME then
      exportStep b name ".xlsx"
    else
      (.error (.valueError ("Unsupported mimeType: " ++ pyOptStr mime)),
        [.metaGet])
where
  exportStep (b : DriveBehavior) (name ext : String) :
      Except ExportFailure (List Nat × String) × List RemoteCall :=
    match b.exportChunks with
    | .error he => (.error (.http he), [.metaGet, .exportMedia])
    | .ok chunks =>
      let filename :=
        if endsWithCh (lowerCh name) ext.data then name else name ++ ext
      (.ok (download_all chunks, filename), [.metaGet, .exportMedia])

/-- The spec's filename rule: the display name "already ends with the
target extension under a case-insensitive comparison" (both sides
lowercased). -/
def hasSuffixCI (name ext : String) : Bool :=
  endsWithCh (lowerCh name) (lowerCh ext)

/-! ## Request handler (`handle_text`, main.py lines 204-234)

A Telegram message carries its visible text and possibly structured
hyperlink entities whose URLs differ from the visible text; the model
records both, as the update object delivers both to the handler.  The
handler's observable behaviour is the ordered list of outbound replies; a
second component records a Python exception escaping the handler (which
aborts the loop over the remaining ids). -/

structure MessageM where
  text : String
  entityUrls : List String

inductive Outbound where
  | text (s : String)
  | document (filename : String) (data : List Nat)
deriving DecidableEq

/-- `(update.message.text or "").strip()`. -/
def pyStrip (s : String) : String :=
  String.mk (((s.data.dropWhile Char.isWhitespace).reverse.dropWhile
    Char.isWhitespace).reverse)

/-- The `for file_id in file_ids` loop of `handle_text`: for each id, the
progress message, then either the document, the classified `HttpError`
message, the classified `ValueError` message, or the generic catch-all
message.  If `describe_http_error` itself raises, the exception escapes the
`except HttpError` clause and aborts the whole loop. -/
def handleIds (env : String → DriveBehavior) : List String →
    List Outbound × Option PyErr
  | [] => ([], none)
  | fid :: rest =>
    let progress := Outbound.text "Конвертирую и скачиваю…"
    match (export_google_file (env fid)).1 with
    | .ok (data, filename) =>
      let r := handleIds env rest
      (progress :: .document filename data :: r.1, r.2)
    | .error (.http he) =>
      match describe_http_error he with
      | .ok msg =>
        let r := handleIds env rest
        (progress :: .text msg :: r.1, r.2)
      | .error pe => ([progress], some pe)
    | .error (.valueError vmsg) =>
      let r := handleIds env rest
      (progress :: .text (describe_value_error vmsg) :: r.1, r.2)

/-- `handle_text` (main.py lines 204-234).  `allowed` summarises
`is_allowed_user` (an environment check); `env` gives the Drive service's
behaviour per file id. -/
def handle_text (allowed : Bool) (m : MessageM)
    (env : String → DriveBehavior) : List Outbound × Option PyErr :=
  if !allowed then ([], none)
  else
    let ids := extract_file_ids (pyStrip m.text)
    if ids.isEmpty then
      ([.text "Не найдена ссылка на документ. Пришли ссылку на Google Docs/Sheets."],
        none)
    else handleIds env ids

/-! ## Concrete inputs used by the claims -/

/-- A text with one `resourcekey=` parameter and one extractable link. -/
def qualifierInput : String :=
  "https://drive.google.com/open?id=XYZ999&resourcekey=Q1"

/-- An `HttpError` whose body is valid JSON but not a JSON object. -/
def badPayloadErr : HttpErrM :=
  { status := some 403, content := some (some (.arr [.num 1])) }

/-- A 403 whose first sub-error carries reason `exportSizeLimitExceeded`. -/
def exportSizeErr : HttpErrM :=
  { status := some 403,
    content := some (some (.obj
      [("error", .obj
        [("errors", .arr [.obj [("reason", .str "exportSizeLimitExceeded")]])])])) }

/-- A 403 with no response body at all. -/
def noContentForbidden : HttpErrM :=
  { status := some 403, content := none }

/-- A 404 whose payload carries both a reason and a message. -/
def notFoundWithReason : HttpErrM :=
  { status := some 404,
    content := some (some (.obj
      [("error", .obj
        [("message", .str "File not found"),
         ("errors", .arr [.obj [("reason", .str "notFound")]])])])) }

/-- A Drive file whose native type is a generic binary (PDF). -/
def pdfDrive : DriveBehavior :=
  { meta := .ok { name := some "f", mimeType := some "application/pdf" },
    exportChunks := .ok [] }

/-- A well-behaved file with the given display name and native type. -/
def sampleDrive (name mime : String) : DriveBehavior :=
  { meta := .ok { name := some name, mimeType := some mime },
    exportChunks := .ok [[1]] }

/-- A document whose metadata has no display name. -/
def noNameDoc : DriveBehavior :=
  { meta := .ok { name := none, mimeType := some GOOGLE_DOC_MIME },
    exportChunks := .ok [[7]] }

/-- A file whose metadata call raises the malformed-payload `HttpError`. -/
def badPayloadDrive : DriveBehavior :=
  { meta := .error badPayloadErr, exportChunks := .ok [] }

/-- A plain exportable document. -/
def plainDocDrive : DriveBehavior :=
  { meta := .ok { name := some "b", mimeType := some GOOGLE_DOC_MIME },
    exportChunks := .ok [[2]] }

/-- A message whose only Google link sits in a hyperlink entity, not in the
visible text. -/
def entityOnlyMsg : MessageM :=
  { text := "see the attached doc",
    entityUrls := ["https://docs.google.com/document/d/ABC123/edit"] }

/-- A message with two document links. -/
def twoLinksMsg : MessageM :=
  { text := "https://docs.google.com/document/d/AAA/edit https://docs.google.com/document/d/BBB/edit",
    entityUrls := [] }

/-- Drive behaviour for `twoLinksMsg`: exporting `AAA` raises the
malformed-payload `HttpError`, `BBB` is fine. -/
def twoLinksEnv : String → DriveBehavior :=
  fun i => if i = "AAA" then badPayloadDrive else plainDocDrive

/-! ## Claims -/

/-- C1 (counterexample): on the spec's own example input, the extraction
pipeline does not produce a reference carrying qualifier `"Q1"` — the code
never parses `resourcekey=` and no qualifier reaches the export call. -/
theorem extract_qualifier_counterexample :
    extractReferences qualifierInput ≠
      [{ id := "XYZ999", qualifier := some "Q1" }] := by
  decide

/-- C1 (amended): extraction attaches no qualifier to any reference — the
`resourcekey=` parameter is ignored; the example input yields exactly one
reference, with id `"XYZ999"` and no qualifier. -/
theorem extract_qualifier_always_none :
    (∀ (t : String) (r : FileReference), r ∈ extractReferences t →
      r.qualifier = none) ∧
    extractReferences qualifierInput = [{ id := "XYZ999", qualifier := none }] := by
  constructor
  · intro t r hr
    rcases List.mem_map.mp hr with ⟨i, _, rfl⟩
    rfl
  · decide

/-- C1 (witness for the amended claim): the amended theorem applied to the
example input and the single reference it yields. -/
theorem extract_qualifier_always_none_w :
    ({ id := "XYZ999", qualifier := none } : FileReference).qualifier = none :=
  extract_qualifier_always_none.1 qualifierInput _ (by decide)

/-- C4: for every input text the extraction output is the raw pattern
matches deduplicated by identifier: no duplicates, the same identifiers as
the raw match list, ordered by position of first occurrence in the raw
match list; in particular a text containing the same identifier via a
`/file/d/` link and via an `id=` link yields exactly one reference. -/
theorem extract_ids_dedup_first_seen :
    (∀ t : String,
      (extract_file_ids t).Nodup ∧
      (∀ x, x ∈ extract_file_ids t ↔ x ∈ allRawIds t) ∧
      (extract_file_ids t).Pairwise
        (fun a b => firstIdx a (allRawIds t) < firstIdx b (allRawIds t))) ∧
    extract_file_ids
      "https://drive.google.com/file/d/ABC/view https://drive.google.com/open?id=ABC" =
      ["ABC"] := by
  constructor
  · intro t
    refine ⟨dedupSeen_nodup _ _, ?_, ?_⟩
    · intro x
      exact ⟨fun h => (mem_dedupSeen h).2,
        fun h => mem_dedupSeen_of_mem h (List.not_mem_nil x)⟩
    · have h := dedupSeen_pairwise (allRawIds t) []
      simpa [extract_file_ids] using h
  · decide

/-- C2 (counterexample): a 403 whose reason is `exportSizeLimitExceeded` —
a reason absent from the spec's mapping table — does not get the generic
"access restricted" message: the code's `reason_map` contains an eleventh
entry, dedicated to export-size overruns. -/
theorem describe_403_counterexample :
    describe_http_error exportSizeErr = .ok "Файл слишком большой для экспорта." ∧
    "Файл слишком большой для экспорта." ≠
      "Доступ ограничен или запрещен. Проверь права." := by
  exact ⟨rfl, by decide⟩

/-- C2 (amended): a 403 whose reason is missing, or is a string that is not
one of the code's eleven mapped reasons (the spec's ten plus
`exportSizeLimitExceeded`), yields the generic "access restricted"
message. -/
theorem describe_403_unmapped (e : HttpErrM) (r m : Option Json)
    (h403 : e.status = some 403)
    (hp : parse_http_error_reason e = .ok (r, m))
    (hr : r = none ∨ ∃ s, r = some (.str s) ∧ reasonMapLookup s = none) :
    describe_http_error e = .ok "Доступ ограничен или запрещен. Проверь права." := by
  rcases hr with rfl | ⟨s, rfl, hs⟩
  · simp [describe_http_error, hp, h403, reasonKeyOf]
  · simp [describe_http_error, hp, h403, reasonKeyOf, hs]

/-- C2 (witness): the amended theorem applied to a 403 with no body. -/
theorem describe_403_unmapped_w :
    describe_http_error noContentForbidden =
      .ok "Доступ ограничен или запрещен. Проверь права." :=
  describe_403_unmapped noContentForbidden none none rfl rfl (Or.inl rfl)

/-- C3 (code bug): on a 403 whose body is the valid JSON text `[1]` — a
non-object payload — `payload.get` is reached outside the `try` block and
raises `AttributeError`, so both the parser and the classifier raise a
secondary error instead of degrading to the other/Unknown branch. -/
theorem classifier_not_total :
    parse_http_error_reason badPayloadErr = .error .attributeError ∧
    describe_http_error badPayloadErr = .error .attributeError :=
  ⟨rfl, rfl⟩

/-- C7: for every error with status 404 whose payload parses, the
classifier returns the not-found message, whatever reason string and
message the payload carried. -/
theorem describe_404_first (e : HttpErrM) (r m : Option Json)
    (h404 : e.status = some 404)
    (hp : parse_http_error_reason e = .ok (r, m)) :
    describe_http_error e =
      .ok "Не найден документ по ссылке. Проверь ссылку и доступ." := by
  simp [describe_http_error, hp, h404]

/-- C7 (witness): the theorem applied to a 404 carrying both a reason and a
message. -/
theorem describe_404_first_w :
    describe_http_error notFoundWithReason =
      .ok "Не найден документ по ссылке. Проверь ссылку и доступ." :=
  describe_404_first notFoundWithReason (some (.str "notFound"))
    (some (.str "File not found")) rfl rfl

/-- Helper: the spec's case-insensitive suffix test coincides with the
code's `name.lower().endswith(ext)` whenever the extension is already
lowercase. -/
theorem hasSuffixCI_eq (name ext : String) (h : lowerCh ext = ext.data) :
    hasSuffixCI name ext = endsWithCh (lowerCh name) ext.data := by
  simp only [hasSuffixCI, h]

/-- C5: when the metadata call succeeds but the native type is neither the
document nor the spreadsheet type, the export fails locally with the
unsupported-type `ValueError`, after the metadata call and with no export
call issued. -/
theorem export_unsupported (b : DriveBehavior) (m : DriveMeta)
    (hm : b.meta = .ok m)
    (hdoc : m.mimeType ≠ some GOOGLE_DOC_MIME)
    (hsheet : m.mimeType ≠ some GOOGLE_SHEET_MIME) :
    (export_google_file b).1 =
      .error (.valueError ("Unsupported mimeType: " ++ pyOptStr m.mimeType)) ∧
    (export_google_file b).2 = [RemoteCall.metaGet] ∧
    RemoteCall.exportMedia ∉ (export_google_file b).2 := by
  refine ⟨?_, ?_, ?_⟩ <;> simp [export_google_file, hm, hdoc, hsheet]

/-- C5 (witness): the theorem applied to a PDF file. -/
theorem export_unsupported_w :
    (export_google_file pdfDrive).1 =
      .error (.valueError ("Unsupported mimeType: " ++ pyOptStr (some "application/pdf"))) ∧
    (export_google_file pdfDrive).2 = [RemoteCall.metaGet] ∧
    RemoteCall.exportMedia ∉ (export_google_file pdfDrive).2 :=
  export_unsupported pdfDrive { name := some "f", mimeType := some "application/pdf" }
    rfl (by decide) (by decide)

/-- C6: for every successful export the returned filename is the resolved
display name when it already carries the target extension under a
case-insensitive comparison, and the display name with the extension
appended otherwise; `"Report"` with the spreadsheet type gives
`"Report.xlsx"` and `"Report.xlsx"` stays unchanged. -/
theorem export_filename_rule :
    (∀ (b : DriveBehavior) (m : DriveMeta) (name : String)
        (chunks : List (List Nat)),
      b.meta = .ok m → m.name = some name → b.exportChunks = .ok chunks →
      (m.mimeType = some GOOGLE_DOC_MIME →
        (export_google_file b).1 = .ok (download_all chunks,
          if hasSuffixCI name ".docx" then name else name ++ ".docx")) ∧
      (m.mimeType = some GOOGLE_SHEET_MIME →
        (export_google_file b).1 = .ok (download_all chunks,
          if hasSuffixCI name ".xlsx" then name else name ++ ".xlsx"))) ∧
    (export_google_file (sampleDrive "Report" GOOGLE_SHEET_MIME)).1 =
      .ok ([1], "Report.xlsx") ∧
    (export_google_file (sampleDrive "Report.xlsx" GOOGLE_SHEET_MIME)).1 =
      .ok ([1], "Report.xlsx") := by
  refine ⟨?_, rfl, rfl⟩
  intro b m name chunks hm hname hx
  have hne : GOOGLE_SHEET_MIME ≠ GOOGLE_DOC_MIME := by decide
  have hdx : hasSuffixCI name ".docx" = endsWithCh (lowerCh name) ".docx".data :=
    hasSuffixCI_eq name ".docx" (by decide)
  have hxx : hasSuffixCI name ".xlsx" = endsWithCh (lowerCh name) ".xlsx".data :=
    hasSuffixCI_eq name ".xlsx" (by decide)
  constructor <;> intro hmime <;>
    simp [export_google_file, export_google_file.exportStep, hm, hname, hx,
      hmime, hne, hdx, hxx]

/-- C6 (witness): the general part applied to a document named `"Mydoc"`. -/
theorem export_filename_rule_w :
    (export_google_file (sampleDrive "Mydoc" GOOGLE_DOC_MIME)).1 =
      .ok ([1], "Mydoc.docx") :=
  (export_filename_rule.1 (sampleDrive "Mydoc" GOOGLE_DOC_MIME)
    { name := some "Mydoc", mimeType := some GOOGLE_DOC_MIME }
    "Mydoc" [[1]] rfl rfl rfl).1 rfl

/-- C10: when the metadata response lacks a display name the export still
succeeds, substituting the default name `"file"`: the filename is
`"file.docx"` for a document and `"file.xlsx"` for a spreadsheet. -/
theorem export_default_name (b : DriveBehavior) (m : DriveMeta)
    (chunks : List (List Nat))
    (hm : b.meta = .ok m) (hname : m.name = none)
    (hx : b.exportChunks = .ok chunks) :
    (m.mimeType = some GOOGLE_DOC_MIME →
      (export_google_file b).1 = .ok (download_all chunks, "file.docx")) ∧
    (m.mimeType = some GOOGLE_SHEET_MIME →
      (export_google_file b).1 = .ok (download_all chunks, "file.xlsx")) := by
  have hne : GOOGLE_SHEET_MIME ≠ GOOGLE_DOC_MIME := by decide
  constructor <;> intro hmime <;>
    simp +decide [export_google_file, export_google_file.exportStep, hm, hname,
      hx, hmime, hne]

/-- C10 (witness): the theorem applied to a nameless document. -/
theorem export_default_name_w :
    (export_google_file noNameDoc).1 = .ok ([7], "file.docx") :=
  (export_default_name noNameDoc { name := none, mimeType := some GOOGLE_DOC_MIME }
    [[7]] rfl rfl rfl).1 rfl

/-- C8 (code bug): the message with links `d/AAA` and `d/BBB` yields two
references, but when exporting `AAA` raises the malformed-payload
`HttpError`, the classifier itself raises inside the `except HttpError`
clause: the handler sends only the progress message — zero classified
messages for `AAA` — and aborts before ever processing `BBB`. -/
theorem handler_aborts_on_classifier_error :
    extract_file_ids (pyStrip twoLinksMsg.text) = ["AAA", "BBB"] ∧
    handle_text true twoLinksMsg twoLinksEnv =
      ([Outbound.text "Конвертирую и скачиваю…"], some PyErr.attributeError) :=
  ⟨rfl, rfl⟩

/-- C9 (counterexample): a message whose only document link lives in a
hyperlink-entity URL (the visible text differs) is answered with the
"no link found" message — even though the entity URL alone would extract
the reference `"ABC123"` — because `handle_text` reads only
`update.message.text`. -/
theorem entity_urls_ignored_counterexample :
    handle_text true entityOnlyMsg (fun _ => plainDocDrive) =
      ([Outbound.text
        "Не найдена ссылка на документ. Пришли ссылку на Google Docs/Sheets."],
        none) ∧
    extract_file_ids "https://docs.google.com/document/d/ABC123/edit" =
      ["ABC123"] :=
  ⟨rfl, rfl⟩

/-- C9 (amended): extraction scans only the plain message text; hyperlink
entity URLs never influence the handler's behaviour. -/
theorem entity_urls_ignored (allowed : Bool) (m : MessageM)
    (env : String → DriveBehavior) :
    handle_text allowed m env =
      handle_text allowed { text := m.text, entityUrls := [] } env :=
  rfl

end GDoc
